import Mathlib

/-!
Verification development for the pg_struct repository.

The repository extracts the structure of a PostgreSQL database into a nested
JSON document (`src/extractor.js`).  Its core is `extractStructure`, which
determines the current database, then walks schemas → tables →
\x7bcolumns, constraints, foreign keys, triggers, indexes\x7d plus per-schema
views and functions, issuing one catalog query per accessor call.

The embedding below models:
* the PostgreSQL catalog tables the queries read (`Catalog`);
* each SQL query as a pure function over the catalog, including the
  `ORDER BY` clauses (modelled with a concrete lexicographic order on
  strings standing for the session collation), the `LIKE` filters, joins
  (as list binds) and `CASE` decodings, all translated from the query text
  in `src/extractor.js`;
* the fallible connection as a `Client`: the catalog plus a map telling
  which queries fail (JS `throw` is `Except.error`), plus the one piece of
  session state the code mutates (`SET search_path`);
* the JS objects as structures, and their `JSON.stringify` image as a
  small `Json` type, so that claims about field names and serialized
  output can be stated.

SQL subqueries that have no `ORDER BY` (the foreign-key column arrays) are
modelled as returning rows in catalog list order, the deterministic
counterpart of a catalog scan.
-/

/-! ## Generic list and string machinery -/

/-- Lexicographic comparison of char lists by code point; stands for the
`ORDER BY` ordering on text columns. -/
def charsLe : List Char → List Char → Bool
  | [], _ => true
  | _ :: _, [] => false
  | a :: as, b :: bs =>
    if a.toNat < b.toNat then true
    else if b.toNat < a.toNat then false
    else charsLe as bs

/-- String comparison used to model SQL `ORDER BY` on name columns. -/
def strLe (a b : String) : Bool := charsLe a.toList b.toList

/-- Insertion into a sorted list, by a boolean comparison. -/
def insertLe {α : Type} (le : α → α → Bool) (x : α) : List α → List α
  | [] => [x]
  | y :: ys => if le x y then x :: y :: ys else y :: insertLe le x ys

/-- Insertion sort by a boolean comparison; models SQL `ORDER BY`. -/
def sortLe {α : Type} (le : α → α → Bool) : List α → List α
  | [] => []
  | x :: xs => insertLe le x (sortLe le xs)

/-- Is `pat` a prefix of `s` (char lists)? -/
def isPrefixOfCL : List Char → List Char → Bool
  | [], _ => true
  | _ :: _, [] => false
  | a :: as, b :: bs => a == b && isPrefixOfCL as bs

/-- Does the char list contain `pat` as a contiguous run? -/
def hasInfixCL (pat : List Char) : List Char → Bool
  | [] => isPrefixOfCL pat []
  | b :: bs => isPrefixOfCL pat (b :: bs) || hasInfixCL pat bs

/-- Model of SQL `s LIKE '%pat%'` for a pattern with no wildcard characters:
substring containment. -/
def sqlLikeContains (s pat : String) : Bool := hasInfixCL pat.toList s.toList

/-- Model of SQL `nspname LIKE 'pg_%'`: `_` matches exactly one character,
so this is "starts with `pg` and has at least one further character". -/
def likePgAnyPercent (s : String) : Bool :=
  match s.toList with
  | 'p' :: 'g' :: _ :: _ => true
  | _ => false

/-- Sequential effectful map over a list in `Except`, aborting at the first
error: the semantics of the JS `for … of` loops that `await` each child
query in turn. -/
def exceptMap {ε α β : Type} (f : α → Except ε β) : List α → Except ε (List β)
  | [] => .ok []
  | x :: xs => do
    let y ← f x
    let ys ← exceptMap f xs
    pure (y :: ys)

/-! ## Catalog model

One structure per catalog relation read by the queries in
`src/extractor.js`, with exactly the fields those queries consult.
`pg_get_constraintdef`, `pg_get_triggerdef` and
`pg_get_function_arguments` are modelled as stored text fields. -/

structure PgNamespace where
  oid : Nat
  nspname : String
deriving DecidableEq

structure PgClass where
  oid : Nat
  relname : String
  relnamespace : Nat
deriving DecidableEq

structure PgAttribute where
  attrelid : Nat
  attnum : Nat
  attname : String
deriving DecidableEq

structure PgConstraint where
  oid : Nat
  conname : String
  contype : Char
  conrelid : Nat
  confrelid : Nat
  conkey : List Nat
  confkey : List Nat
  confupdtype : Char
  confdeltype : Char
  condef : String
deriving DecidableEq

structure PgTrigger where
  oid : Nat
  tgname : String
  tgenabled : Char
  tgtype : Nat
  tgrelid : Nat
  tgfoid : Nat
  tgisinternal : Bool
  tgdef : String
deriving DecidableEq

structure PgProc where
  oid : Nat
  proname : String
  pronamespace : Nat
  prorettype : Nat
  prolang : Nat
  prosrc : String
  provolatile : Char
  proisstrict : Bool
  proretset : Bool
  prokind : Char
  proargs : String
deriving DecidableEq

structure PgLanguage where
  oid : Nat
  lanname : String
deriving DecidableEq

structure PgType where
  oid : Nat
  typname : String
deriving DecidableEq

/-- A row of `information_schema.tables`. -/
structure ISTable where
  table_schema : String
  table_name : String
  table_type : String
deriving DecidableEq

/-- A row of `information_schema.columns`. -/
structure ISColumn where
  table_schema : String
  table_name : String
  ordinal_position : Nat
  column_name : String
  data_type : String
  is_nullable : String
  column_default : Option String
  character_maximum_length : Option Int
  numeric_precision : Option Int
  numeric_scale : Option Int
deriving DecidableEq

/-- A row of `information_schema.views`. -/
structure ISView where
  table_schema : String
  table_name : String
  view_definition : Option String
deriving DecidableEq

/-- A row of the `pg_indexes` view. -/
structure PgIndexesRow where
  schemaname : String
  tablename : String
  indexname : String
  indexdef : String
  tablespace : Option String
deriving DecidableEq

/-- A row of `pg_index`.  `indisunique` is carried by the catalog but never
read by the extractor's query. -/
structure PgIndexRow where
  indexrelid : Nat
  indrelid : Nat
  indkey : List Nat
  indisunique : Bool
  indisprimary : Bool
  indisvalid : Bool
deriving DecidableEq

/-- The catalog state of the connected database, plus the rows returned by
`SELECT current_database() as db_name` (one row on a healthy server). -/
structure Catalog where
  currentDbRows : List String
  namespaces : List PgNamespace
  classes : List PgClass
  attributes : List PgAttribute
  constraints : List PgConstraint
  triggers : List PgTrigger
  procs : List PgProc
  languages : List PgLanguage
  types : List PgType
  istTables : List ISTable
  istColumns : List ISColumn
  istViews : List ISView
  pgIndexes : List PgIndexesRow
  pgIndex : List PgIndexRow

/-! ## Output row shapes

The JS accessors return query rows directly (columns, constraints, foreign
keys, triggers, indexes) or re-mapped objects (views, functions).  One
structure per shape, fields named as the JS objects' keys. -/

/-- A `getColumns` result row: raw query row, keys are the SQL aliases. -/
structure ColumnRow where
  column_name : String
  data_type : String
  is_nullable : String
  column_default : Option String
  character_maximum_length : Option Int
  numeric_precision : Option Int
  numeric_scale : Option Int
deriving DecidableEq

/-- A `getConstraints` result row: raw query row. -/
structure ConstraintRow where
  constraint_name : String
  constraint_type : Char
  constraint_type_desc : String
  definition : String
deriving DecidableEq

/-- A `getForeignKeys` result row: raw query row. -/
structure FkRow where
  constraint_name : String
  source_schema : String
  source_table : String
  source_columns : List String
  target_schema : String
  target_table : String
  target_columns : List String
  update_rule : Option String
  delete_rule : Option String
deriving DecidableEq

/-- A `getTriggers` result row: raw query row. -/
structure TriggerRow where
  trigger_name : String
  enabled : Char
  level : String
  timing : String
  insert_event : Bool
  delete_event : Bool
  update_event : Bool
  truncate_event : Bool
  function_name : String
  function_schema : String
  definition : String
deriving DecidableEq

/-- A `getViews` result object (rows re-mapped by the JS code). -/
structure ViewOut where
  name : String
  definition : Option String
deriving DecidableEq

/-- A `getFunctions` result object (rows re-mapped by the JS code). -/
structure FunOut where
  name : String
  arguments : String
  return_type : String
  body : String
  type : String
  volatility : Char
  is_strict : Bool
  returns_set : Bool
deriving DecidableEq

/-- A `getIndexes` result row: raw query row. -/
structure IndexRow where
  index_name : String
  index_definition : String
  column_names : Option (List String)
  tablespace_name : Option String
  is_unique : Bool
  is_primary : Bool
  is_valid : Bool
deriving DecidableEq

structure Table where
  name : String
  columns : List ColumnRow
  constraints : List ConstraintRow
  foreignKeys : List FkRow
  triggers : List TriggerRow
  indexes : List IndexRow
deriving DecidableEq

structure Schema where
  name : String
  tables : List Table
  views : List ViewOut
  functions : List FunOut
deriving DecidableEq

structure Database where
  name : String
  schemas : List Schema
deriving DecidableEq

structure Document where
  databases : List Database
deriving DecidableEq

/-! ## The catalog queries as pure functions

Each definition is the translation of one SQL query from
`src/extractor.js`: WHERE clauses become filters, JOINs become list binds,
CASE expressions become conditionals, ORDER BY becomes `sortLe`. -/

/-- The `getSchemas` query: `SELECT nspname FROM pg_namespace WHERE nspname NOT
LIKE 'pg_%' AND nspname != 'information_schema' ORDER BY nspname`. -/
def schemasRows (cat : Catalog) : List String :=
  sortLe strLe ((cat.namespaces.filter (fun ns =>
    !likePgAnyPercent ns.nspname && ns.nspname != "information_schema")).map (·.nspname))

/-- The `getTables` query: base tables of a schema, ordered by name. -/
def tablesRows (cat : Catalog) (schemaName : String) : List String :=
  sortLe strLe ((cat.istTables.filter (fun r =>
    r.table_schema == schemaName && r.table_type == "BASE TABLE")).map (·.table_name))

/-- The `getColumns` query before projection: rows of
`information_schema.columns` for the table, `ORDER BY ordinal_position`. -/
def columnsSorted (cat : Catalog) (schemaName tableName : String) : List ISColumn :=
  sortLe (fun a b => decide (a.ordinal_position ≤ b.ordinal_position))
    (cat.istColumns.filter (fun r =>
      r.table_schema == schemaName && r.table_name == tableName))

/-- The seven selected columns of the `getColumns` query. -/
def toColumnRow (r : ISColumn) : ColumnRow :=
  ⟨r.column_name, r.data_type, r.is_nullable, r.column_default,
   r.character_maximum_length, r.numeric_precision, r.numeric_scale⟩

/-- The `getColumns` result rows. -/
def columnsRows (cat : Catalog) (schemaName tableName : String) : List ColumnRow :=
  (columnsSorted cat schemaName tableName).map toColumnRow

/-- The `CASE con.contype … END` decoding in `getConstraints`. -/
def constraintTypeDesc (c : Char) : String :=
  if c = 'p' then "PRIMARY KEY"
  else if c = 'u' then "UNIQUE"
  else if c = 'c' then "CHECK"
  else if c = 'f' then "FOREIGN KEY"
  else String.singleton c

/-- The `getConstraints` query: `pg_constraint` joined to `pg_class` and
`pg_namespace`, filtered to the table, `ORDER BY conname`. -/
def constraintsRows (cat : Catalog) (schemaName tableName : String) : List ConstraintRow :=
  sortLe (fun a b => strLe a.constraint_name b.constraint_name)
    (cat.constraints.flatMap (fun con =>
      (cat.classes.filter (fun rel => rel.oid == con.conrelid)).flatMap (fun rel =>
        (cat.namespaces.filter (fun nsp => nsp.oid == rel.relnamespace)).filterMap (fun nsp =>
          if nsp.nspname == schemaName && rel.relname == tableName then
            some ⟨con.conname, con.contype, constraintTypeDesc con.contype, con.condef⟩
          else none))))

/-- The `CASE con.confupdtype/confdeltype … ELSE NULL END` decoding in
`getForeignKeys`. -/
def fkRuleDesc (c : Char) : Option String :=
  if c = 'a' then some "NO ACTION"
  else if c = 'r' then some "RESTRICT"
  else if c = 'c' then some "CASCADE"
  else if c = 'n' then some "SET NULL"
  else if c = 'd' then some "SET DEFAULT"
  else none

/-- The `ARRAY(SELECT attname FROM pg_attribute WHERE attrelid = rel AND
attnum = ANY(keys))` subquery of `getForeignKeys`.  It has no `ORDER BY`:
rows come back in catalog scan order (the order of `cat.attributes`), not
in the order of `keys`, and each matching attribute appears once however
often its number occurs in `keys`. -/
def fkColumnsScan (cat : Catalog) (rel : Nat) (keys : List Nat) : List String :=
  (cat.attributes.filter (fun a => a.attrelid == rel && keys.contains a.attnum)).map
    (·.attname)

/-- The `getForeignKeys` query: five-way join, `contype = 'f'`, `ORDER BY
conname`. -/
def fkRows (cat : Catalog) (schemaName tableName : String) : List FkRow :=
  sortLe (fun a b => strLe a.constraint_name b.constraint_name)
    (cat.constraints.flatMap (fun con =>
      (cat.classes.filter (fun cl1 => con.conrelid == cl1.oid)).flatMap (fun cl1 =>
        (cat.namespaces.filter (fun ns1 => cl1.relnamespace == ns1.oid)).flatMap (fun ns1 =>
          (cat.classes.filter (fun cl2 => con.confrelid == cl2.oid)).flatMap (fun cl2 =>
            (cat.namespaces.filter (fun ns2 => cl2.relnamespace == ns2.oid)).filterMap
              (fun ns2 =>
                if ns1.nspname == schemaName && cl1.relname == tableName
                    && con.contype == 'f' then
                  some { constraint_name := con.conname
                         source_schema := ns1.nspname
                         source_table := cl1.relname
                         source_columns := fkColumnsScan cat con.conrelid con.conkey
                         target_schema := ns2.nspname
                         target_table := cl2.relname
                         target_columns := fkColumnsScan cat con.confrelid con.confkey
                         update_rule := fkRuleDesc con.confupdtype
                         delete_rule := fkRuleDesc con.confdeltype }
                else none))))))

/-- Decoding of `CASE WHEN (trg.tgtype & (1<<0)) > 0 THEN 'ROW' ELSE 'STATEMENT' END`. -/
def triggerLevel (t : Nat) : String :=
  if 0 < t &&& (1 <<< 0) then "ROW" else "STATEMENT"

/-- Decoding of `CASE WHEN (tgtype & (1<<1)) > 0 THEN 'BEFORE' WHEN (tgtype & (1<<6)) > 0
THEN 'INSTEAD OF' ELSE 'AFTER' END`. -/
def triggerTiming (t : Nat) : String :=
  if 0 < t &&& (1 <<< 1) then "BEFORE"
  else if 0 < t &&& (1 <<< 6) then "INSTEAD OF"
  else "AFTER"

/-- Decoding of `CASE WHEN (tgtype & (1<<2)) > 0 THEN true ELSE false END`. -/
def triggerInsertEvent (t : Nat) : Bool := decide (0 < t &&& (1 <<< 2))

/-- Decoding of `CASE WHEN (tgtype & (1<<3)) > 0 THEN true ELSE false END`. -/
def triggerDeleteEvent (t : Nat) : Bool := decide (0 < t &&& (1 <<< 3))

/-- Decoding of `CASE WHEN (tgtype & (1<<4)) > 0 THEN true ELSE false END`. -/
def triggerUpdateEvent (t : Nat) : Bool := decide (0 < t &&& (1 <<< 4))

/-- Decoding of `CASE WHEN (tgtype & (1<<5)) > 0 THEN true ELSE false END`. -/
def triggerTruncateEvent (t : Nat) : Bool := decide (0 < t &&& (1 <<< 5))

/-- The `getTriggers` query: `pg_trigger` joined to table, proc and their
namespaces, non-internal triggers of the table, `ORDER BY trigger_name`. -/
def triggersRows (cat : Catalog) (schemaName tableName : String) : List TriggerRow :=
  sortLe (fun a b => strLe a.trigger_name b.trigger_name)
    (cat.triggers.flatMap (fun trg =>
      (cat.classes.filter (fun tbl => trg.tgrelid == tbl.oid)).flatMap (fun tbl =>
        (cat.procs.filter (fun p => trg.tgfoid == p.oid)).flatMap (fun p =>
          (cat.namespaces.filter (fun ns => p.pronamespace == ns.oid)).flatMap (fun ns =>
            (cat.namespaces.filter (fun nsp => tbl.relnamespace == nsp.oid)).filterMap
              (fun nsp =>
                if !trg.tgisinternal && nsp.nspname == schemaName
                    && tbl.relname == tableName then
                  some { trigger_name := trg.tgname
                         enabled := trg.tgenabled
                         level := triggerLevel trg.tgtype
                         timing := triggerTiming trg.tgtype
                         insert_event := triggerInsertEvent trg.tgtype
                         delete_event := triggerDeleteEvent trg.tgtype
                         update_event := triggerUpdateEvent trg.tgtype
                         truncate_event := triggerTruncateEvent trg.tgtype
                         function_name := p.proname
                         function_schema := ns.nspname
                         definition := trg.tgdef }
                else none))))))

/-- The `getViews` accessor: rows of `information_schema.views` for the schema, ordered
by name, re-mapped by the JS code to `(name, definition)`. -/
def viewsRows (cat : Catalog) (schemaName : String) : List ViewOut :=
  (sortLe (fun a b => strLe a.table_name b.table_name)
    (cat.istViews.filter (fun v => v.table_schema == schemaName))).map
    (fun v => ⟨v.table_name, v.view_definition⟩)

/-- The `CASE p.prokind … END` decoding in `getFunctions`. -/
def functionTypeDesc (c : Char) : String :=
  if c = 'f' then "FUNCTION"
  else if c = 'p' then "PROCEDURE"
  else if c = 'a' then "AGGREGATE"
  else if c = 'w' then "WINDOW"
  else String.singleton c

/-- SQL `LEFT JOIN`: when no row matches, one null-extended row. -/
def leftJoinRows {α : Type} (rows : List α) : List (Option α) :=
  match rows with
  | [] => [none]
  | r :: rs => (r :: rs).map some

/-- Per-proc contribution of the `getFunctions` join and filter (before
sorting).  The query's `LEFT JOIN pg_language l` is followed by `WHERE
l.lanname NOT IN ('internal', 'c')`, so a null-extended row is dropped too:
a SQL comparison against NULL is not true.  The JS row-mapping to
`(name, arguments, …)` is applied here; it renames fields one-for-one, so
applying it before the `ORDER BY function_name` sort leaves the result
unchanged. -/
def funContrib (cat : Catalog) (schemaName : String) (p : PgProc) : List FunOut :=
  (cat.namespaces.filter (fun n => p.pronamespace == n.oid)).flatMap (fun n =>
    (cat.types.filter (fun t => p.prorettype == t.oid)).flatMap (fun t =>
      (leftJoinRows (cat.languages.filter (fun l => p.prolang == l.oid))).filterMap
        (fun lrow =>
          match lrow with
          | none => none
          | some l =>
            if n.nspname == schemaName && l.lanname != "internal"
                && l.lanname != "c" then
              some { name := p.proname
                     arguments := p.proargs
                     return_type := t.typname
                     body := p.prosrc
                     type := functionTypeDesc p.prokind
                     volatility := p.provolatile
                     is_strict := p.proisstrict
                     returns_set := p.proretset }
            else none)))

/-- The `getFunctions` result objects, `ORDER BY function_name`. -/
def functionsRows (cat : Catalog) (schemaName : String) : List FunOut :=
  sortLe (fun a b => strLe a.name b.name) (cat.procs.flatMap (funContrib cat schemaName))

/-- The correlated `array_agg(attname ORDER BY array_position(indkey,
attnum))` subquery of `getIndexes`: key column names of the index, in
declared key order.  `array_agg` over zero rows is SQL NULL, hence the
`Option`.  `array_position` is modelled by `List.indexOf` (0- vs 1-based
is irrelevant to the ordering). -/
def indexColumnNames (cat : Catalog) (i : PgIndexesRow) : Option (List String) :=
  match cat.pgIndex.flatMap (fun ix =>
      (cat.classes.filter (fun ci => ci.oid == ix.indexrelid)).flatMap (fun ci =>
        (cat.classes.filter (fun ct => ct.oid == ix.indrelid)).flatMap (fun ct =>
          (cat.attributes.filter (fun a =>
              a.attrelid == ct.oid && ix.indkey.contains a.attnum)).flatMap (fun a =>
            (cat.namespaces.filter (fun n => n.oid == ct.relnamespace)).filterMap
              (fun n =>
                if ci.relname == i.indexname && n.nspname == i.schemaname
                    && ct.relname == i.tablename then
                  some (ix.indkey.indexOf a.attnum, a.attname)
                else none))))) with
  | [] => none
  | p :: ps => some ((sortLe (fun x y => decide (x.1 ≤ y.1)) (p :: ps)).map (·.2))

/-- The `getIndexes` query: `pg_indexes` joined to `pg_class`, `pg_namespace`
and `pg_index`, filtered to the table, `ORDER BY indexname`.  `is_unique`
is the `CASE WHEN i.indexdef LIKE '%UNIQUE INDEX%' THEN true ELSE false
END` text heuristic. -/
def indexesRows (cat : Catalog) (schemaName tableName : String) : List IndexRow :=
  sortLe (fun a b => strLe a.index_name b.index_name)
    (cat.pgIndexes.flatMap (fun i =>
      (cat.classes.filter (fun c => c.relname == i.indexname)).flatMap (fun c =>
        (cat.namespaces.filter (fun n =>
            n.nspname == i.schemaname && n.oid == c.relnamespace)).flatMap (fun _n =>
          (cat.pgIndex.filter (fun ix => ix.indexrelid == c.oid)).filterMap (fun ix =>
            if i.schemaname == schemaName && i.tablename == tableName then
              some { index_name := i.indexname
                     index_definition := i.indexdef
                     column_names := indexColumnNames cat i
                     tablespace_name := i.tablespace
                     is_unique := sqlLikeContains i.indexdef "UNIQUE INDEX"
                     is_primary := ix.indisprimary
                     is_valid := ix.indisvalid }
            else none)))))

/-! ## The traversal on a failure-free connection -/

/-- The table object assembled by `getTables`' loop body. -/
def pureTable (cat : Catalog) (schemaName tableName : String) : Table :=
  ⟨tableName,
   columnsRows cat schemaName tableName,
   constraintsRows cat schemaName tableName,
   fkRows cat schemaName tableName,
   triggersRows cat schemaName tableName,
   indexesRows cat schemaName tableName⟩

/-- The tables list assembled by `getTables`. -/
def pureTables (cat : Catalog) (schemaName : String) : List Table :=
  (tablesRows cat schemaName).map (pureTable cat schemaName)

/-- The schema object assembled by `getSchemas`' loop body. -/
def pureSchema (cat : Catalog) (schemaName : String) : Schema :=
  ⟨schemaName, pureTables cat schemaName, viewsRows cat schemaName,
   functionsRows cat schemaName⟩

/-- The schemas list assembled by `getSchemas`. -/
def pureSchemas (cat : Catalog) : List Schema :=
  (schemasRows cat).map (pureSchema cat)

/-- The document `extractStructure` returns when every query succeeds. -/
def pureDocument (cat : Catalog) (dbName : String) : Document :=
  ⟨[⟨dbName, pureSchemas cat⟩]⟩

/-! ## The fallible connection and the traversal

`client.query(…)` either returns rows or throws.  A `Client` is the
catalog plus a static map saying which queries fail (and with what
message), plus the one piece of session state the extractor writes:
the search path set by `SET search_path TO "$user", public`.  A JS
exception is an `Except.error`; the only non-query exception the extractor
can raise is the `TypeError` of reading `rows[0].db_name` on an empty
result (modelled as `JsError.typeError`). -/

/-- Identifies each query the extractor can issue, with its parameters. -/
inductive QueryId where
  | currentDatabase
  | setSearchPath
  | listSchemas
  | listTables (schemaName : String)
  | listColumns (schemaName tableName : String)
  | listConstraints (schemaName tableName : String)
  | listForeignKeys (schemaName tableName : String)
  | listTriggers (schemaName tableName : String)
  | listViews (schemaName : String)
  | listFunctions (schemaName : String)
  | listIndexes (schemaName tableName : String)
deriving DecidableEq

/-- A JS exception escaping the extractor. -/
inductive JsError where
  | query (msg : String)
  | typeError
deriving DecidableEq

/-- A connection: catalog state, which queries fail, and the session's
search path. -/
structure Client where
  cat : Catalog
  failures : QueryId → Option String
  searchPath : String

/-- Run one query: fail if the failure map says so, otherwise return the
supplied rows. -/
def runq {ρ : Type} (fails : QueryId → Option String) (q : QueryId) (rows : ρ) :
    Except JsError ρ :=
  match fails q with
  | some m => .error (.query m)
  | none => .ok rows

/-- Accessor `getColumns` on a connection. -/
def getColumns (cat : Catalog) (fails : QueryId → Option String)
    (schemaName tableName : String) : Except JsError (List ColumnRow) :=
  runq fails (.listColumns schemaName tableName) (columnsRows cat schemaName tableName)

/-- Accessor `getConstraints` on a connection. -/
def getConstraints (cat : Catalog) (fails : QueryId → Option String)
    (schemaName tableName : String) : Except JsError (List ConstraintRow) :=
  runq fails (.listConstraints schemaName tableName)
    (constraintsRows cat schemaName tableName)

/-- Accessor `getForeignKeys` on a connection. -/
def getForeignKeys (cat : Catalog) (fails : QueryId → Option String)
    (schemaName tableName : String) : Except JsError (List FkRow) :=
  runq fails (.listForeignKeys schemaName tableName) (fkRows cat schemaName tableName)

/-- Accessor `getTriggers` on a connection. -/
def getTriggers (cat : Catalog) (fails : QueryId → Option String)
    (schemaName tableName : String) : Except JsError (List TriggerRow) :=
  runq fails (.listTriggers schemaName tableName) (triggersRows cat schemaName tableName)

/-- Accessor `getIndexes` on a connection. -/
def getIndexes (cat : Catalog) (fails : QueryId → Option String)
    (schemaName tableName : String) : Except JsError (List IndexRow) :=
  runq fails (.listIndexes schemaName tableName) (indexesRows cat schemaName tableName)

/-- Accessor `getViews` on a connection. -/
def getViews (cat : Catalog) (fails : QueryId → Option String)
    (schemaName : String) : Except JsError (List ViewOut) :=
  runq fails (.listViews schemaName) (viewsRows cat schemaName)

/-- Accessor `getFunctions` on a connection. -/
def getFunctions (cat : Catalog) (fails : QueryId → Option String)
    (schemaName : String) : Except JsError (List FunOut) :=
  runq fails (.listFunctions schemaName) (functionsRows cat schemaName)

/-- Accessor `getTables` on a connection: the tables query, then per table the five
child accessors in program order, aborting at the first exception. -/
def getTables (cat : Catalog) (fails : QueryId → Option String)
    (schemaName : String) : Except JsError (List Table) := do
  let names ← runq fails (.listTables schemaName) (tablesRows cat schemaName)
  exceptMap (fun tableName => do
    let cols ← getColumns cat fails schemaName tableName
    let cons ← getConstraints cat fails schemaName tableName
    let fks ← getForeignKeys cat fails schemaName tableName
    let trgs ← getTriggers cat fails schemaName tableName
    let idxs ← getIndexes cat fails schemaName tableName
    pure (⟨tableName, cols, cons, fks, trgs, idxs⟩ : Table)) names

/-- The result part of `getSchemas`: the schemas query, then per schema the
tables/views/functions accessors in program order.  (The `database`
argument is accepted and ignored, as in the source.) -/
def getSchemasResult (cat : Catalog) (fails : QueryId → Option String)
    (_database : String) : Except JsError (List Schema) := do
  let names ← runq fails .listSchemas (schemasRows cat)
  exceptMap (fun schemaName => do
    let ts ← getTables cat fails schemaName
    let vs ← getViews cat fails schemaName
    let fs ← getFunctions cat fails schemaName
    pure (⟨schemaName, ts, vs, fs⟩ : Schema)) names

/-- Accessor `getSchemas` on a connection.  It first attempts
`SET search_path TO "$user", public`; a failure there is caught and only
logged, so it affects neither the session nor the result, while success
updates the session's search path.  Then the traversal runs.  Returns the
result together with the connection (whose only possible change is the
search path). -/
def getSchemas (c : Client) (database : String) :
    Except JsError (List Schema) × Client :=
  let c1 :=
    match c.failures .setSearchPath with
    | some _ => c
    | none => { c with searchPath := "\"$user\", public" }
  (getSchemasResult c1.cat c1.failures database, c1)

/-- Entry point `extractStructure`: read the current database name as
`rows[0].db_name` (a `TypeError` on an empty result — the subscript is
unchecked), then delegate to `getSchemas` and wrap the schema list as
`\x7bdatabases: [\x7bname, schemas\x7d]\x7d`.  The `catch` block rethrows
the error unchanged. -/
def extractStructure (c : Client) : Except JsError Document × Client :=
  match c.failures .currentDatabase with
  | some m => (.error (.query m), c)
  | none =>
    match c.cat.currentDbRows with
    | [] => (.error .typeError, c)
    | dbName :: _ =>
      let p := getSchemas c dbName
      (p.1.map (fun ss => ⟨[⟨dbName, ss⟩]⟩), p.2)

/-! ## JSON image of the output

`JSON.stringify` of the returned objects: field names and field order are
those of the JS objects (for raw query rows, the SQL select-list aliases in
select order). -/

inductive Json where
  | jnull
  | jbool (b : Bool)
  | jnum (n : Int)
  | jstr (s : String)
  | jarr (elems : List Json)
  | jobj (fields : List (String × Json))

/-- Look a field up in a JSON object. -/
def Json.getField (j : Json) (k : String) : Option Json :=
  match j with
  | .jobj fields => fields.lookup k
  | _ => none

/-- The field names of a JSON object, in order. -/
def Json.objKeys (j : Json) : List String :=
  match j with
  | .jobj fields => fields.map (·.1)
  | _ => []

def jsonOfStrOpt : Option String → Json
  | none => .jnull
  | some s => .jstr s

def jsonOfIntOpt : Option Int → Json
  | none => .jnull
  | some n => .jnum n

/-- A pg `"char"` value arrives in JS as a one-character string. -/
def jsonOfChar (c : Char) : Json := .jstr (String.singleton c)

def renderColumnRow (r : ColumnRow) : Json :=
  .jobj [("column_name", .jstr r.column_name),
         ("data_type", .jstr r.data_type),
         ("is_nullable", .jstr r.is_nullable),
         ("column_default", jsonOfStrOpt r.column_default),
         ("character_maximum_length", jsonOfIntOpt r.character_maximum_length),
         ("numeric_precision", jsonOfIntOpt r.numeric_precision),
         ("numeric_scale", jsonOfIntOpt r.numeric_scale)]

def renderConstraintRow (r : ConstraintRow) : Json :=
  .jobj [("constraint_name", .jstr r.constraint_name),
         ("constraint_type", jsonOfChar r.constraint_type),
         ("constraint_type_desc", .jstr r.constraint_type_desc),
         ("definition", .jstr r.definition)]

def renderFkRow (r : FkRow) : Json :=
  .jobj [("constraint_name", .jstr r.constraint_name),
         ("source_schema", .jstr r.source_schema),
         ("source_table", .jstr r.source_table),
         ("source_columns", .jarr (r.source_columns.map .jstr)),
         ("target_schema", .jstr r.target_schema),
         ("target_table", .jstr r.target_table),
         ("target_columns", .jarr (r.target_columns.map .jstr)),
         ("update_rule", jsonOfStrOpt r.update_rule),
         ("delete_rule", jsonOfStrOpt r.delete_rule)]

def renderTriggerRow (r : TriggerRow) : Json :=
  .jobj [("trigger_name", .jstr r.trigger_name),
         ("enabled", jsonOfChar r.enabled),
         ("level", .jstr r.level),
         ("timing", .jstr r.timing),
         ("insert_event", .jbool r.insert_event),
         ("delete_event", .jbool r.delete_event),
         ("update_event", .jbool r.update_event),
         ("truncate_event", .jbool r.truncate_event),
         ("function_name", .jstr r.function_name),
         ("function_schema", .jstr r.function_schema),
         ("definition", .jstr r.definition)]

def renderViewOut (r : ViewOut) : Json :=
  .jobj [("name", .jstr r.name), ("definition", jsonOfStrOpt r.definition)]

def renderFunOut (r : FunOut) : Json :=
  .jobj [("name", .jstr r.name),
         ("arguments", .jstr r.arguments),
         ("return_type", .jstr r.return_type),
         ("body", .jstr r.body),
         ("type", .jstr r.type),
         ("volatility", jsonOfChar r.volatility),
         ("is_strict", .jbool r.is_strict),
         ("returns_set", .jbool r.returns_set)]

def renderIndexRow (r : IndexRow) : Json :=
  .jobj [("index_name", .jstr r.index_name),
         ("index_definition", .jstr r.index_definition),
         ("column_names",
           match r.column_names with
           | none => .jnull
           | some cs => .jarr (cs.map .jstr)),
         ("tablespace_name", jsonOfStrOpt r.tablespace_name),
         ("is_unique", .jbool r.is_unique),
         ("is_primary", .jbool r.is_primary),
         ("is_valid", .jbool r.is_valid)]

def renderTable (t : Table) : Json :=
  .jobj [("name", .jstr t.name),
         ("columns", .jarr (t.columns.map renderColumnRow)),
         ("constraints", .jarr (t.constraints.map renderConstraintRow)),
         ("foreignKeys", .jarr (t.foreignKeys.map renderFkRow)),
         ("triggers", .jarr (t.triggers.map renderTriggerRow)),
         ("indexes", .jarr (t.indexes.map renderIndexRow))]

def renderSchema (s : Schema) : Json :=
  .jobj [("name", .jstr s.name),
         ("tables", .jarr (s.tables.map renderTable)),
         ("views", .jarr (s.views.map renderViewOut)),
         ("functions", .jarr (s.functions.map renderFunOut))]

def renderDatabase (d : Database) : Json :=
  .jobj [("name", .jstr d.name), ("schemas", .jarr (d.schemas.map renderSchema))]

def renderDocument (d : Document) : Json :=
  .jobj [("databases", .jarr (d.databases.map renderDatabase))]

mutual

def Json.render : Json → String
  | .jnull => "null"
  | .jbool b => if b then "true" else "false"
  | .jnum n => toString n
  | .jstr s => "\"" ++ s ++ "\""
  | .jarr elems => "[" ++ Json.renderElems elems ++ "]"
  | .jobj fields => "\x7b" ++ Json.renderFields fields ++ "\x7d"

def Json.renderElems : List Json → String
  | [] => ""
  | [x] => x.render
  | x :: y :: xs => x.render ++ "," ++ Json.renderElems (y :: xs)

def Json.renderFields : List (String × Json) → String
  | [] => ""
  | [kv] => "\"" ++ kv.1 ++ "\":" ++ kv.2.render
  | kv :: kv2 :: xs =>
    "\"" ++ kv.1 ++ "\":" ++ kv.2.render ++ "," ++ Json.renderFields (kv2 :: xs)

end

/-- Serialization of an extraction outcome: the JSON text on success, the
surfaced error otherwise. -/
def serializeOutcome : Except JsError Document → String
  | .ok d => (renderDocument d).render
  | .error (.query m) => "Error: " ++ m
  | .error .typeError => "TypeError"

/-! ## Spec-side definition for the foreign-key column order

The spec demands column arrays in the foreign key's declared key order:
position i of the array is the attribute whose number is position i of
`conkey` (resp. `confkey`).  This is the definition the code's
`fkColumnsScan` is compared against. -/

/-- The column names of `keys` in declared key order, per the spec's words
"source_columns[i] is the referencing column that maps to
target_columns[i], in the foreign key's declared key order". -/
def declaredKeyColumns (cat : Catalog) (rel : Nat) (keys : List Nat) : List String :=
  keys.filterMap (fun k =>
    (cat.attributes.find? (fun a => a.attrelid == rel && a.attnum == k)).map (·.attname))

/-! ## Example catalogs -/

/-- A catalog with no objects at all, connected to database `mydb`. -/
def emptyCatalog : Catalog :=
  ⟨["mydb"], [], [], [], [], [], [], [], [], [], [], [], [], []⟩

/-- Table `child(a, b)` references `parent(x, y)` through
`FOREIGN KEY (b, a) REFERENCES parent (x, y)`: `conkey = [2, 1]`,
`confkey = [1, 2]`. -/
def exCatFk : Catalog :=
  { emptyCatalog with
    namespaces := [⟨100, "public"⟩]
    classes := [⟨10, "child", 100⟩, ⟨20, "parent", 100⟩]
    attributes := [⟨10, 1, "a"⟩, ⟨10, 2, "b"⟩, ⟨20, 1, "x"⟩, ⟨20, 2, "y"⟩]
    constraints := [⟨1, "fk1", 'f', 10, 20, [2, 1], [1, 2], 'a', 'a',
      "FOREIGN KEY (b, a) REFERENCES parent(x, y)"⟩]
    istTables := [⟨"public", "child", "BASE TABLE"⟩, ⟨"public", "parent", "BASE TABLE"⟩] }

/-- A table `t` whose first declared column is named `b` and second `a`. -/
def exCatCols : Catalog :=
  { emptyCatalog with
    namespaces := [⟨100, "public"⟩]
    istTables := [⟨"public", "t", "BASE TABLE"⟩]
    istColumns := [⟨"public", "t", 1, "b", "integer", "YES", none, none, some 32, some 0⟩,
                   ⟨"public", "t", 2, "a", "text", "YES", none, none, none, none⟩] }

/-- The spec's scenario catalog: `public.users(id int not null,
name text null default 'anon')` with a primary key on `id`. -/
def exCatUsers : Catalog :=
  { emptyCatalog with
    namespaces := [⟨100, "public"⟩]
    classes := [⟨30, "users", 100⟩]
    istTables := [⟨"public", "users", "BASE TABLE"⟩]
    istColumns := [⟨"public", "users", 1, "id", "integer", "NO", none, none,
                     some 32, some 0⟩,
                   ⟨"public", "users", 2, "name", "text", "YES",
                     some "anon::text", none, none, none⟩]
    constraints := [⟨5, "users_pkey", 'p', 30, 0, [1], [], ' ', ' ',
      "PRIMARY KEY (id)"⟩] }

/-- A `BEFORE UPDATE … FOR EACH ROW` trigger: `tgtype = 19` (bits 0, 1, 4). -/
def exCatTrig : Catalog :=
  { emptyCatalog with
    namespaces := [⟨100, "public"⟩]
    classes := [⟨30, "users", 100⟩]
    procs := [⟨40, "audit_fn", 100, 50, 60, "begin end", 'v', false, false, 'f', ""⟩]
    triggers := [⟨70, "trg_bu", 'O', 19, 30, 40, false,
      "CREATE TRIGGER trg_bu BEFORE UPDATE ON public.users FOR EACH ROW EXECUTE FUNCTION audit_fn()"⟩] }

/-- The trigger row the extractor produces for `exCatTrig`. -/
def exTrigRow : TriggerRow :=
  ⟨"trg_bu", 'O', "ROW", "BEFORE", false, false, true, false, "audit_fn", "public",
   "CREATE TRIGGER trg_bu BEFORE UPDATE ON public.users FOR EACH ROW EXECUTE FUNCTION audit_fn()"⟩

/-- One function in an internal (non-inspectable) language and one plain
SQL function, both in `public`. -/
def exCatFun : Catalog :=
  { emptyCatalog with
    namespaces := [⟨100, "public"⟩]
    types := [⟨50, "int4"⟩]
    languages := [⟨60, "internal"⟩, ⟨61, "sql"⟩]
    procs := [⟨40, "native_fn", 100, 50, 60, "native_fn", 'v', false, false, 'f', ""⟩,
              ⟨41, "plain_fn", 100, 50, 61, "select 1", 'i', true, false, 'f', ""⟩] }

/-- The internal-language function of `exCatFun`. -/
def exNativeProc : PgProc :=
  ⟨40, "native_fn", 100, 50, 60, "native_fn", 'v', false, false, 'f', ""⟩

/-- An index whose catalog row says `indisunique = true` but whose
definition text does not contain `UNIQUE INDEX`. -/
def exCatIdx : Catalog :=
  { emptyCatalog with
    namespaces := [⟨100, "public"⟩]
    classes := [⟨30, "t", 100⟩, ⟨31, "i1", 100⟩]
    attributes := [⟨30, 1, "b"⟩]
    istTables := [⟨"public", "t", "BASE TABLE"⟩]
    pgIndexes := [⟨"public", "t", "i1", "CREATE INDEX i1 ON public.t USING btree (b)",
      none⟩]
    pgIndex := [⟨31, 30, [1], true, false, true⟩] }

/-- A connection to `exCatUsers` on which every query succeeds. -/
def exClientOk : Client := ⟨exCatUsers, fun _ => none, ""⟩

/-- A connection on which every query succeeds but the current-database
query returns zero rows. -/
def exClientNoDb : Client :=
  ⟨{ exCatUsers with currentDbRows := [] }, fun _ => none, ""⟩

/-! ## Supporting lemmas -/

theorem mem_insertLe {α : Type} (le : α → α → Bool) (x : α) (l : List α) (a : α) :
    a ∈ insertLe le x l ↔ a = x ∨ a ∈ l := by
  induction l with
  | nil => simp [insertLe]
  | cons y ys ih =>
    simp only [insertLe]
    split
    · simp [List.mem_cons]
    · simp only [List.mem_cons, ih]
      tauto

theorem mem_sortLe {α : Type} (le : α → α → Bool) (l : List α) (a : α) :
    a ∈ sortLe le l ↔ a ∈ l := by
  induction l with
  | nil => simp [sortLe]
  | cons x xs ih =>
    simp only [sortLe, mem_insertLe, ih, List.mem_cons]

theorem pairwise_insertLe {α : Type} (le : α → α → Bool)
    (htrans : ∀ a b c, le a b = true → le b c = true → le a c = true)
    (htotal : ∀ a b, le a b = true ∨ le b a = true)
    (x : α) (l : List α) (h : l.Pairwise (fun a b => le a b = true)) :
    (insertLe le x l).Pairwise (fun a b => le a b = true) := by
  induction l with
  | nil => simp [insertLe]
  | cons y ys ih =>
    rcases List.pairwise_cons.mp h with ⟨hy, hys⟩
    simp only [insertLe]
    split
    · rename_i hxy
      refine List.pairwise_cons.mpr ⟨?_, h⟩
      intro b hb
      rcases List.mem_cons.mp hb with hb | hb
      · exact hb ▸ hxy
      · exact htrans _ _ _ hxy (hy b hb)
    · rename_i hxy
      have hyx : le y x = true := by
        rcases htotal x y with h1 | h1
        · exact absurd h1 hxy
        · exact h1
      refine List.pairwise_cons.mpr ⟨?_, ih hys⟩
      intro b hb
      rcases (mem_insertLe le x ys b).mp hb with hb | hb
      · exact hb ▸ hyx
      · exact hy b hb

theorem pairwise_sortLe {α : Type} (le : α → α → Bool)
    (htrans : ∀ a b c, le a b = true → le b c = true → le a c = true)
    (htotal : ∀ a b, le a b = true ∨ le b a = true)
    (l : List α) :
    (sortLe le l).Pairwise (fun a b => le a b = true) := by
  induction l with
  | nil => simp [sortLe]
  | cons x xs ih => exact pairwise_insertLe le htrans htotal x _ ih

theorem charsLe_total : ∀ xs ys, charsLe xs ys = true ∨ charsLe ys xs = true := by
  intro xs
  induction xs with
  | nil => intro ys; left; rfl
  | cons a as ih =>
    intro ys
    cases ys with
    | nil => right; rfl
    | cons b bs =>
      simp only [charsLe]
      rcases Nat.lt_trichotomy a.toNat b.toNat with h | h | h
      · left; simp [h]
      · have h1 : ¬ a.toNat < b.toNat := by omega
        have h2 : ¬ b.toNat < a.toNat := by omega
        simp only [if_neg h1, if_neg h2, if_neg (by omega : ¬ b.toNat < a.toNat),
          if_neg (by omega : ¬ a.toNat < b.toNat)]
        exact ih bs
      · right; simp [h]

theorem charsLe_trans : ∀ xs ys zs, charsLe xs ys = true → charsLe ys zs = true →
    charsLe xs zs = true := by
  intro xs
  induction xs with
  | nil => intro ys zs _ _; rfl
  | cons a as ih =>
    intro ys zs h1 h2
    cases ys with
    | nil => simp [charsLe] at h1
    | cons b bs =>
      cases zs with
      | nil => simp [charsLe] at h2
      | cons c cs =>
        simp only [charsLe] at h1 h2 ⊢
        rcases Nat.lt_trichotomy a.toNat b.toNat with hab | hab | hab
        · rcases Nat.lt_trichotomy b.toNat c.toNat with hbc | hbc | hbc
          · simp [show a.toNat < c.toNat by omega]
          · simp [show a.toNat < c.toNat by omega]
          · simp [hbc, show ¬ b.toNat < c.toNat by omega] at h2
        · rcases Nat.lt_trichotomy b.toNat c.toNat with hbc | hbc | hbc
          · simp [show a.toNat < c.toNat by omega]
          · have h1' : charsLe as bs = true := by
              simpa [show ¬ a.toNat < b.toNat by omega, show ¬ b.toNat < a.toNat by omega] using h1
            have h2' : charsLe bs cs = true := by
              simpa [show ¬ b.toNat < c.toNat by omega, show ¬ c.toNat < b.toNat by omega] using h2
            simp [show ¬ a.toNat < c.toNat by omega, show ¬ c.toNat < a.toNat by omega,
              ih bs cs h1' h2']
          · simp [hbc, show ¬ b.toNat < c.toNat by omega] at h2
        · simp [hab, show ¬ a.toNat < b.toNat by omega] at h1

theorem strLe_total : ∀ a b : String, strLe a b = true ∨ strLe b a = true := by
  intro a b
  exact charsLe_total a.toList b.toList

theorem strLe_trans : ∀ a b c : String, strLe a b = true → strLe b c = true →
    strLe a c = true := by
  intro a b c
  exact charsLe_trans a.toList b.toList c.toList

theorem exceptMap_ok {ε α β : Type} (f : α → Except ε β) (g : α → β) (l : List α)
    (h : ∀ x ∈ l, f x = .ok (g x)) : exceptMap f l = .ok (l.map g) := by
  induction l with
  | nil => rfl
  | cons x xs ih =>
    simp only [exceptMap, h x (List.mem_cons_self x xs), List.map_cons,
      ih (fun y hy => h y (List.mem_cons_of_mem x hy))]
    rfl

theorem exceptMap_error {ε α β : Type} (f : α → Except ε β) (l : List α) (e : ε)
    (h : exceptMap f l = .error e) : ∃ x ∈ l, f x = .error e := by
  induction l with
  | nil => simp [exceptMap] at h
  | cons x xs ih =>
    simp only [exceptMap] at h
    cases hfx : f x with
    | error e' =>
      rw [hfx] at h
      replace h : (Except.error e' : Except ε (List β)) = .error e := h
      cases h
      exact ⟨x, List.mem_cons_self x xs, hfx⟩
    | ok y =>
      rw [hfx] at h
      replace h : (exceptMap f xs >>= fun ys => pure (y :: ys)) = .error e := h
      cases hrest : exceptMap f xs with
      | error e' =>
        rw [hrest] at h
        replace h : (Except.error e' : Except ε (List β)) = .error e := h
        cases h
        obtain ⟨z, hz, hfz⟩ := ih hrest
        exact ⟨z, List.mem_cons_of_mem x hz, hfz⟩
      | ok ys =>
        rw [hrest] at h
        replace h : (Except.ok (y :: ys) : Except ε (List β)) = .error e := h
        exact Except.noConfusion h

theorem exceptMap_congr {ε α β : Type} (f g : α → Except ε β) (l : List α)
    (h : ∀ x ∈ l, f x = g x) : exceptMap f l = exceptMap g l := by
  induction l with
  | nil => rfl
  | cons x xs ih =>
    simp only [exceptMap, h x (List.mem_cons_self x xs),
      ih (fun y hy => h y (List.mem_cons_of_mem x hy))]

theorem runq_ok {ρ : Type} (fails : QueryId → Option String) (q : QueryId) (rows : ρ)
    (h : fails q = none) : runq fails q rows = .ok rows := by
  simp [runq, h]

theorem runq_error {ρ : Type} (fails : QueryId → Option String) (q : QueryId) (rows : ρ)
    (e : JsError) (h : runq fails q rows = .error e) :
    ∃ m, e = .query m ∧ fails q = some m := by
  unfold runq at h
  cases hq : fails q with
  | some m =>
    rw [hq] at h
    cases h
    exact ⟨m, rfl, rfl⟩
  | none =>
    rw [hq] at h
    cases h

theorem except_bind_error {ε α β : Type} (x : Except ε α) (f : α → Except ε β) (e : ε)
    (h : (x >>= f) = .error e) : x = .error e ∨ ∃ v, x = .ok v ∧ f v = .error e := by
  cases x with
  | error e' =>
    left
    replace h : (Except.error e' : Except ε β) = .error e := h
    cases h
    rfl
  | ok v =>
    right
    exact ⟨v, rfl, h⟩

theorem pairwise_names_sortLe {α : Type} (key : α → String) (l : List α) :
    ((sortLe (fun a b => strLe (key a) (key b)) l).map key).Pairwise
      (fun a b => strLe a b = true) := by
  rw [List.pairwise_map]
  exact pairwise_sortLe (fun a b => strLe (key a) (key b))
    (fun a b c hab hbc => strLe_trans (key a) (key b) (key c) hab hbc)
    (fun a b => strLe_total (key a) (key b)) l

theorem land_one_shift_pos (t k : Nat) : (0 < t &&& (1 <<< k)) ↔ t.testBit k = true := by
  rw [Nat.shiftLeft_eq, one_mul, Nat.and_two_pow]
  cases h : t.testBit k <;> simp [h, Nat.pos_pow_of_pos]

theorem flatMap_filter_of_nil {α β : Type} (l : List α) (p : α → Bool) (g : α → List β)
    (h : ∀ x ∈ l, p x = false → g x = []) : (l.filter p).flatMap g = l.flatMap g := by
  induction l with
  | nil => rfl
  | cons x xs ih =>
    have ih' := ih (fun y hy => h y (List.mem_cons_of_mem x hy))
    cases hp : p x with
    | true => simp [List.filter_cons, hp, ih']
    | false =>
      simp [List.filter_cons, hp, ih', h x (List.mem_cons_self x xs) hp]

theorem except_ok_bind {ε α β : Type} (a : α) (f : α → Except ε β) :
    (Except.ok a >>= f : Except ε β) = f a := rfl

theorem except_map_error {ε α β : Type} (x : Except ε α) (f : α → β) (e : ε)
    (h : x.map f = .error e) : x = .error e := by
  cases x with
  | ok v =>
    replace h : (Except.ok (f v) : Except ε β) = .error e := h
    exact Except.noConfusion h
  | error e' =>
    replace h : (Except.error e' : Except ε β) = .error e := h
    cases h
    rfl

theorem getTables_ok (cat : Catalog) (fails : QueryId → Option String) (s : String)
    (h : ∀ q, q ≠ QueryId.setSearchPath → fails q = none) :
    getTables cat fails s = .ok (pureTables cat s) := by
  unfold getTables
  have h1 : fails (QueryId.listTables s) = none := h _ (fun hq => nomatch hq)
  have h2 : ∀ tn, fails (QueryId.listColumns s tn) = none :=
    fun tn => h _ (fun hq => nomatch hq)
  have h3 : ∀ tn, fails (QueryId.listConstraints s tn) = none :=
    fun tn => h _ (fun hq => nomatch hq)
  have h4 : ∀ tn, fails (QueryId.listForeignKeys s tn) = none :=
    fun tn => h _ (fun hq => nomatch hq)
  have h5 : ∀ tn, fails (QueryId.listTriggers s tn) = none :=
    fun tn => h _ (fun hq => nomatch hq)
  have h6 : ∀ tn, fails (QueryId.listIndexes s tn) = none :=
    fun tn => h _ (fun hq => nomatch hq)
  simp only [runq, getColumns, getConstraints, getForeignKeys, getTriggers, getIndexes,
    h1, h2, h3, h4, h5, h6, except_ok_bind]
  exact exceptMap_ok _ (pureTable cat s) _ (fun t _ => rfl)

theorem getSchemasResult_ok (cat : Catalog) (fails : QueryId → Option String)
    (database : String) (h : ∀ q, q ≠ QueryId.setSearchPath → fails q = none) :
    getSchemasResult cat fails database = .ok (pureSchemas cat) := by
  unfold getSchemasResult
  have h1 : fails QueryId.listSchemas = none := h _ (fun hq => nomatch hq)
  have h2 : ∀ sn, fails (QueryId.listViews sn) = none :=
    fun sn => h _ (fun hq => nomatch hq)
  have h3 : ∀ sn, fails (QueryId.listFunctions sn) = none :=
    fun sn => h _ (fun hq => nomatch hq)
  have ht : ∀ sn, getTables cat fails sn = .ok (pureTables cat sn) :=
    fun sn => getTables_ok cat fails sn h
  simp only [runq, getViews, getFunctions, h1, h2, h3, ht, except_ok_bind]
  exact exceptMap_ok _ (pureSchema cat) _ (fun sn _ => rfl)

theorem found_failure {fails : QueryId → Option String} {q : QueryId} {m : String}
    (hm : fails q = some m) (hne : q ≠ QueryId.setSearchPath) :
    ∃ m2, (JsError.query m : JsError) = .query m2
      ∧ ∃ q2, q2 ≠ QueryId.setSearchPath ∧ fails q2 = some m2 :=
  ⟨m, rfl, q, hne, hm⟩

theorem getTables_error (cat : Catalog) (fails : QueryId → Option String) (s : String)
    (e : JsError) (h : getTables cat fails s = .error e) :
    ∃ m, e = .query m ∧ ∃ q, q ≠ QueryId.setSearchPath ∧ fails q = some m := by
  unfold getTables at h
  rcases except_bind_error _ _ _ h with h1 | ⟨names, _, h2⟩
  · rcases runq_error _ _ _ _ h1 with ⟨m, rfl, hm⟩
    exact found_failure hm (fun hq => nomatch hq)
  · rcases exceptMap_error _ _ _ h2 with ⟨t, _, hft⟩
    rcases except_bind_error _ _ _ hft with hc | ⟨_, _, hft⟩
    · rcases runq_error _ _ _ _ hc with ⟨m, rfl, hm⟩
      exact found_failure hm (fun hq => nomatch hq)
    · rcases except_bind_error _ _ _ hft with hc | ⟨_, _, hft⟩
      · rcases runq_error _ _ _ _ hc with ⟨m, rfl, hm⟩
        exact found_failure hm (fun hq => nomatch hq)
      · rcases except_bind_error _ _ _ hft with hc | ⟨_, _, hft⟩
        · rcases runq_error _ _ _ _ hc with ⟨m, rfl, hm⟩
          exact found_failure hm (fun hq => nomatch hq)
        · rcases except_bind_error _ _ _ hft with hc | ⟨_, _, hft⟩
          · rcases runq_error _ _ _ _ hc with ⟨m, rfl, hm⟩
            exact found_failure hm (fun hq => nomatch hq)
          · rcases except_bind_error _ _ _ hft with hc | ⟨_, _, hft⟩
            · rcases runq_error _ _ _ _ hc with ⟨m, rfl, hm⟩
              exact found_failure hm (fun hq => nomatch hq)
            · replace hft : (Except.ok _ : Except JsError Table) = .error e := hft
              exact Except.noConfusion hft

theorem getSchemasResult_error (cat : Catalog) (fails : QueryId → Option String)
    (database : String) (e : JsError)
    (h : getSchemasResult cat fails database = .error e) :
    ∃ m, e = .query m ∧ ∃ q, q ≠ QueryId.setSearchPath ∧ fails q = some m := by
  unfold getSchemasResult at h
  rcases except_bind_error _ _ _ h with h1 | ⟨names, _, h2⟩
  · rcases runq_error _ _ _ _ h1 with ⟨m, rfl, hm⟩
    exact found_failure hm (fun hq => nomatch hq)
  · rcases exceptMap_error _ _ _ h2 with ⟨sn, _, hfs⟩
    rcases except_bind_error _ _ _ hfs with hc | ⟨_, _, hfs⟩
    · exact getTables_error cat fails sn e hc
    · rcases except_bind_error _ _ _ hfs with hc | ⟨_, _, hfs⟩
      · rcases runq_error _ _ _ _ hc with ⟨m, rfl, hm⟩
        exact found_failure hm (fun hq => nomatch hq)
      · rcases except_bind_error _ _ _ hfs with hc | ⟨_, _, hfs⟩
        · rcases runq_error _ _ _ _ hc with ⟨m, rfl, hm⟩
          exact found_failure hm (fun hq => nomatch hq)
        · replace hfs : (Except.ok _ : Except JsError Schema) = .error e := hfs
          exact Except.noConfusion hfs

theorem getTables_congr (cat : Catalog) (f1 f2 : QueryId → Option String) (s : String)
    (h : ∀ q, q ≠ QueryId.setSearchPath → f1 q = f2 q) :
    getTables cat f1 s = getTables cat f2 s := by
  unfold getTables
  have h1 : f1 (QueryId.listTables s) = f2 (QueryId.listTables s) :=
    h _ (fun hq => nomatch hq)
  have h2 : ∀ tn, f1 (QueryId.listColumns s tn) = f2 (QueryId.listColumns s tn) :=
    fun tn => h _ (fun hq => nomatch hq)
  have h3 : ∀ tn, f1 (QueryId.listConstraints s tn) = f2 (QueryId.listConstraints s tn) :=
    fun tn => h _ (fun hq => nomatch hq)
  have h4 : ∀ tn, f1 (QueryId.listForeignKeys s tn) = f2 (QueryId.listForeignKeys s tn) :=
    fun tn => h _ (fun hq => nomatch hq)
  have h5 : ∀ tn, f1 (QueryId.listTriggers s tn) = f2 (QueryId.listTriggers s tn) :=
    fun tn => h _ (fun hq => nomatch hq)
  have h6 : ∀ tn, f1 (QueryId.listIndexes s tn) = f2 (QueryId.listIndexes s tn) :=
    fun tn => h _ (fun hq => nomatch hq)
  simp only [runq, getColumns, getConstraints, getForeignKeys, getTriggers, getIndexes,
    h1, h2, h3, h4, h5, h6]

theorem getSchemasResult_congr (cat : Catalog) (f1 f2 : QueryId → Option String)
    (database : String) (h : ∀ q, q ≠ QueryId.setSearchPath → f1 q = f2 q) :
    getSchemasResult cat f1 database = getSchemasResult cat f2 database := by
  unfold getSchemasResult
  have h1 : f1 QueryId.listSchemas = f2 QueryId.listSchemas := h _ (fun hq => nomatch hq)
  have h2 : ∀ sn, f1 (QueryId.listViews sn) = f2 (QueryId.listViews sn) :=
    fun sn => h _ (fun hq => nomatch hq)
  have h3 : ∀ sn, f1 (QueryId.listFunctions sn) = f2 (QueryId.listFunctions sn) :=
    fun sn => h _ (fun hq => nomatch hq)
  have ht : ∀ sn, getTables cat f1 sn = getTables cat f2 sn :=
    fun sn => getTables_congr cat f1 f2 sn h
  simp only [runq, getViews, getFunctions, h1, h2, h3, ht]

theorem getSchemas_fst (c : Client) (database : String) :
    (getSchemas c database).1 = getSchemasResult c.cat c.failures database := by
  unfold getSchemas
  cases h : c.failures QueryId.setSearchPath with
  | some m => rfl
  | none => rfl

theorem extract_snd (c : Client) :
    (extractStructure c).2.cat = c.cat ∧ (extractStructure c).2.failures = c.failures := by
  unfold extractStructure
  cases h1 : c.failures QueryId.currentDatabase with
  | some m => exact ⟨rfl, rfl⟩
  | none =>
    cases h2 : c.cat.currentDbRows with
    | nil => exact ⟨rfl, rfl⟩
    | cons dbName rest =>
      unfold getSchemas
      cases h3 : c.failures QueryId.setSearchPath with
      | some m => exact ⟨rfl, rfl⟩
      | none => exact ⟨rfl, rfl⟩

theorem extract_fst_congr (c1 c2 : Client) (hcat : c1.cat = c2.cat)
    (hf : ∀ q, q ≠ QueryId.setSearchPath → c1.failures q = c2.failures q) :
    (extractStructure c1).1 = (extractStructure c2).1 := by
  unfold extractStructure
  have hdb : c1.failures QueryId.currentDatabase = c2.failures QueryId.currentDatabase :=
    hf _ (fun hq => nomatch hq)
  cases hcd : c2.failures QueryId.currentDatabase with
  | some m => rw [hdb, hcd]
  | none =>
    rw [hdb, hcd, hcat]
    cases hrows : c2.cat.currentDbRows with
    | nil => rfl
    | cons dbName rest =>
      show Except.map (fun ss =>
          ({ databases := [{ name := dbName, schemas := ss }] } : Document))
          (getSchemas c1 dbName).1
        = Except.map (fun ss =>
          ({ databases := [{ name := dbName, schemas := ss }] } : Document))
          (getSchemas c2 dbName).1
      rw [getSchemas_fst, getSchemas_fst, hcat,
        getSchemasResult_congr c2.cat c1.failures c2.failures dbName hf]

theorem runq_ok_inv {ρ : Type} (fails : QueryId → Option String) (q : QueryId)
    (rows y : ρ) (h : runq fails q rows = .ok y) : y = rows := by
  unfold runq at h
  cases hq : fails q with
  | some m =>
    rw [hq] at h
    exact Except.noConfusion h
  | none =>
    rw [hq] at h
    cases h
    rfl

theorem exceptMap_ok_inv {ε α β : Type} (f : α → Except ε β) (g : α → β) (l : List α)
    (ys : List β) (hf : ∀ x ∈ l, ∀ y, f x = .ok y → y = g x)
    (h : exceptMap f l = .ok ys) : ys = l.map g := by
  induction l generalizing ys with
  | nil =>
    replace h : (Except.ok [] : Except ε (List β)) = .ok ys := h
    cases h
    rfl
  | cons x xs ih =>
    simp only [exceptMap] at h
    cases hfx : f x with
    | error e =>
      rw [hfx] at h
      exact Except.noConfusion h
    | ok y =>
      rw [hfx] at h
      replace h : (exceptMap f xs >>= fun ys2 => pure (y :: ys2)) = .ok ys := h
      cases hrest : exceptMap f xs with
      | error e =>
        rw [hrest] at h
        exact Except.noConfusion h
      | ok ys2 =>
        rw [hrest] at h
        replace h : (Except.ok (y :: ys2) : Except ε (List β)) = .ok ys := h
        cases h
        rw [List.map_cons, hf x (List.mem_cons_self x xs) y hfx,
          ih ys2 (fun z hz => hf z (List.mem_cons_of_mem x hz)) hrest]

theorem getTables_ok_inv (cat : Catalog) (fails : QueryId → Option String) (s : String)
    (ts : List Table) (h : getTables cat fails s = .ok ts) : ts = pureTables cat s := by
  unfold getTables at h
  cases hq : runq fails (.listTables s) (tablesRows cat s) with
  | error e =>
    rw [hq] at h
    exact Except.noConfusion h
  | ok names =>
    have hnames := runq_ok_inv _ _ _ _ hq
    rw [hq] at h
    replace h : exceptMap _ names = .ok ts := h
    subst hnames
    refine exceptMap_ok_inv _ (pureTable cat s) _ _ (fun t _ y hy => ?_) h
    cases hc1 : getColumns cat fails s t with
    | error e => rw [hc1] at hy; exact Except.noConfusion hy
    | ok cols =>
      have e1 := runq_ok_inv _ _ _ _ hc1
      rw [hc1] at hy
      replace hy : (do
        let cons ← getConstraints cat fails s t
        let fks ← getForeignKeys cat fails s t
        let trgs ← getTriggers cat fails s t
        let idxs ← getIndexes cat fails s t
        pure (⟨t, cols, cons, fks, trgs, idxs⟩ : Table)) = Except.ok y := hy
      cases hc2 : getConstraints cat fails s t with
      | error e => rw [hc2] at hy; exact Except.noConfusion hy
      | ok cons =>
        have e2 := runq_ok_inv _ _ _ _ hc2
        rw [hc2] at hy
        replace hy : (do
          let fks ← getForeignKeys cat fails s t
          let trgs ← getTriggers cat fails s t
          let idxs ← getIndexes cat fails s t
          pure (⟨t, cols, cons, fks, trgs, idxs⟩ : Table)) = Except.ok y := hy
        cases hc3 : getForeignKeys cat fails s t with
        | error e => rw [hc3] at hy; exact Except.noConfusion hy
        | ok fks =>
          have e3 := runq_ok_inv _ _ _ _ hc3
          rw [hc3] at hy
          replace hy : (do
            let trgs ← getTriggers cat fails s t
            let idxs ← getIndexes cat fails s t
            pure (⟨t, cols, cons, fks, trgs, idxs⟩ : Table)) = Except.ok y := hy
          cases hc4 : getTriggers cat fails s t with
          | error e => rw [hc4] at hy; exact Except.noConfusion hy
          | ok trgs =>
            have e4 := runq_ok_inv _ _ _ _ hc4
            rw [hc4] at hy
            replace hy : (do
              let idxs ← getIndexes cat fails s t
              pure (⟨t, cols, cons, fks, trgs, idxs⟩ : Table)) = Except.ok y := hy
            cases hc5 : getIndexes cat fails s t with
            | error e => rw [hc5] at hy; exact Except.noConfusion hy
            | ok idxs =>
              have e5 := runq_ok_inv _ _ _ _ hc5
              rw [hc5] at hy
              replace hy : (Except.ok (⟨t, cols, cons, fks, trgs, idxs⟩ : Table))
                  = Except.ok y := hy
              cases hy
              rw [e1, e2, e3, e4, e5]
              rfl

theorem getSchemasResult_ok_inv (cat : Catalog) (fails : QueryId → Option String)
    (database : String) (ss : List Schema)
    (h : getSchemasResult cat fails database = .ok ss) : ss = pureSchemas cat := by
  unfold getSchemasResult at h
  cases hq : runq fails .listSchemas (schemasRows cat) with
  | error e =>
    rw [hq] at h
    exact Except.noConfusion h
  | ok names =>
    have hnames := runq_ok_inv _ _ _ _ hq
    rw [hq] at h
    replace h : exceptMap _ names = .ok ss := h
    subst hnames
    refine exceptMap_ok_inv _ (pureSchema cat) _ _ (fun sn _ y hy => ?_) h
    cases hc1 : getTables cat fails sn with
    | error e => rw [hc1] at hy; exact Except.noConfusion hy
    | ok ts =>
      have e1 := getTables_ok_inv _ _ _ _ hc1
      rw [hc1] at hy
      replace hy : (do
        let vs ← getViews cat fails sn
        let fs ← getFunctions cat fails sn
        pure (⟨sn, ts, vs, fs⟩ : Schema)) = Except.ok y := hy
      cases hc2 : getViews cat fails sn with
      | error e => rw [hc2] at hy; exact Except.noConfusion hy
      | ok vs =>
        have e2 := runq_ok_inv _ _ _ _ hc2
        rw [hc2] at hy
        replace hy : (do
          let fs ← getFunctions cat fails sn
          pure (⟨sn, ts, vs, fs⟩ : Schema)) = Except.ok y := hy
        cases hc3 : getFunctions cat fails sn with
        | error e => rw [hc3] at hy; exact Except.noConfusion hy
        | ok fs =>
          have e3 := runq_ok_inv _ _ _ _ hc3
          rw [hc3] at hy
          replace hy : (Except.ok (⟨sn, ts, vs, fs⟩ : Schema)) = Except.ok y := hy
          cases hy
          rw [e1, e2, e3]
          rfl

theorem except_map_ok_inv {ε α β : Type} (x : Except ε α) (f : α → β) (b : β)
    (h : x.map f = .ok b) : ∃ a, x = .ok a ∧ b = f a := by
  cases x with
  | error e =>
    replace h : (Except.error e : Except ε β) = .ok b := h
    exact Except.noConfusion h
  | ok a =>
    replace h : (Except.ok (f a) : Except ε β) = .ok b := h
    cases h
    exact ⟨a, rfl, rfl⟩

theorem land_one_shift_ite {α : Type} (n k : Nat) (a b : α) :
    (if 0 < n &&& (1 <<< k) then a else b) = (if n.testBit k then a else b) := by
  cases h : n.testBit k with
  | false =>
    have hn : ¬ (0 < n &&& (1 <<< k)) := fun hc => by
      simp [(land_one_shift_pos n k).mp hc] at h
    rw [if_neg hn]
    simp
  | true =>
    have hp : 0 < n &&& (1 <<< k) := (land_one_shift_pos n k).mpr h
    rw [if_pos hp]
    simp

theorem land_one_shift_decide (n k : Nat) :
    decide (0 < n &&& (1 <<< k)) = n.testBit k := by
  cases h : n.testBit k with
  | false =>
    have hn : ¬ (0 < n &&& (1 <<< k)) := fun hc => by
      simp [(land_one_shift_pos n k).mp hc] at h
    simp [hn]
  | true =>
    have hp : 0 < n &&& (1 <<< k) := (land_one_shift_pos n k).mpr h
    simp [hp]

/-! ## The claims -/

/-- C1: the claim says the foreign-key `source_columns` and
`target_columns` position-correspond in the foreign key's declared key
order.  The code's `ARRAY` subqueries return attributes in catalog scan
order, not `conkey`/`confkey` order.  At `exCatFk` — `FOREIGN KEY (b, a)
REFERENCES parent (x, y)` — the code emits `source_columns = ["a", "b"]`
(scan order) against `target_columns = ["x", "y"]`, while the declared key
order pairs `b` with `x` and `a` with `y`: position `i` of the emitted
arrays does not describe the constraint's column mapping. -/
theorem fk_columns_not_position_matched :
    (fkRows exCatFk "public" "child").map
      (fun r => (r.source_columns, r.target_columns)) = [(["a", "b"], ["x", "y"])]
    ∧ declaredKeyColumns exCatFk 10 [2, 1] = ["b", "a"]
    ∧ declaredKeyColumns exCatFk 20 [1, 2] = ["x", "y"]
    ∧ (["a", "b"] : List String) ≠ ["b", "a"] :=
  ⟨rfl, rfl, rfl, by decide⟩

/-- C2 counterexample: the claim says every child list — columns of a
table included — is sorted ascending by name.  In `exCatCols` the table
`t` declares column `b` before column `a`; the output column list is in
declaration order `["b", "a"]`, not sorted by name. -/
theorem columns_not_sorted_by_name :
    ¬ ((columnsRows exCatCols "public" "t").map (·.column_name)).Pairwise
      (fun a b => strLe a b = true) := by
  intro h
  rw [show (columnsRows exCatCols "public" "t").map (·.column_name) = ["b", "a"]
    from rfl] at h
  have h2 : strLe "b" "a" = true :=
    (List.pairwise_cons.mp h).1 "a" (List.mem_singleton.mpr rfl)
  exact absurd h2 (by decide)

/-- C2 (amended): every child list of the output — schemas of the
database, tables, views and functions of a schema, and constraints,
foreign keys, triggers and indexes of a table — is sorted ascending by the
child's name; a table's columns are the exception, ordered by declaration
position (`ordinal_position`) instead. -/
theorem child_lists_sorted (cat : Catalog) (s t : String) :
    (schemasRows cat).Pairwise (fun a b => strLe a b = true)
    ∧ (tablesRows cat s).Pairwise (fun a b => strLe a b = true)
    ∧ ((viewsRows cat s).map (·.name)).Pairwise (fun a b => strLe a b = true)
    ∧ ((functionsRows cat s).map (·.name)).Pairwise (fun a b => strLe a b = true)
    ∧ ((constraintsRows cat s t).map (·.constraint_name)).Pairwise
        (fun a b => strLe a b = true)
    ∧ ((fkRows cat s t).map (·.constraint_name)).Pairwise
        (fun a b => strLe a b = true)
    ∧ ((triggersRows cat s t).map (·.trigger_name)).Pairwise
        (fun a b => strLe a b = true)
    ∧ ((indexesRows cat s t).map (·.index_name)).Pairwise
        (fun a b => strLe a b = true)
    ∧ (columnsSorted cat s t).Pairwise
        (fun a b => a.ordinal_position ≤ b.ordinal_position)
    ∧ columnsRows cat s t = (columnsSorted cat s t).map toColumnRow := by
  refine ⟨?_, ?_, ?_, ?_, ?_, ?_, ?_, ?_, ?_, rfl⟩
  · exact pairwise_sortLe strLe strLe_trans strLe_total _
  · exact pairwise_sortLe strLe strLe_trans strLe_total _
  · rw [show (viewsRows cat s).map (·.name)
        = (sortLe (fun a b => strLe a.table_name b.table_name)
            (cat.istViews.filter (fun v => v.table_schema == s))).map (·.table_name)
      from by rw [viewsRows, List.map_map]; rfl]
    exact pairwise_names_sortLe _ _
  · exact pairwise_names_sortLe FunOut.name _
  · exact pairwise_names_sortLe ConstraintRow.constraint_name _
  · exact pairwise_names_sortLe FkRow.constraint_name _
  · exact pairwise_names_sortLe TriggerRow.trigger_name _
  · exact pairwise_names_sortLe IndexRow.index_name _
  · have := pairwise_sortLe
      (fun a b : ISColumn => decide (a.ordinal_position ≤ b.ordinal_position))
      (fun a b c hab hbc => by
        simp only [decide_eq_true_eq] at hab hbc ⊢
        omega)
      (fun a b => by
        rcases Nat.le_total a.ordinal_position b.ordinal_position with h | h
        · exact Or.inl (by simpa using h)
        · exact Or.inr (by simpa using h))
      (cat.istColumns.filter (fun r => r.table_schema == s && r.table_name == t))
    refine List.Pairwise.imp ?_ this
    intro a b hab
    simpa using hab

/-- C3 counterexample: the claim says column entries use the field names
`name`, `default`, `max_length` (among others) and constraint entries use
`type`.  The code returns raw query rows, so at the scenario catalog the
rendered column objects have no `name` field (the data sits under
`column_name`) and the rendered constraint object has no `type` field. -/
theorem spec_field_names_absent :
    ((columnsRows exCatUsers "public" "users").map
      (fun r => (renderColumnRow r).getField "name")) = [none, none]
    ∧ ((columnsRows exCatUsers "public" "users").map
      (fun r => (renderColumnRow r).getField "column_name"))
      = [some (.jstr "id"), some (.jstr "name")]
    ∧ ((constraintsRows exCatUsers "public" "users").map
      (fun r => (renderConstraintRow r).getField "type")) = [none] :=
  ⟨rfl, rfl, rfl⟩

/-- C3 (amended): column entries use the raw select-list field names
`column_name, data_type, is_nullable, column_default,
character_maximum_length, numeric_precision, numeric_scale` and constraint
entries use `constraint_name, constraint_type, constraint_type_desc,
definition`; the values behave as the scenario expects: for `id int not
null` the entry has `column_name "id"`, `data_type "integer"`,
`is_nullable "NO"`, and the primary-key constraint's
`constraint_type_desc` is `PRIMARY KEY`. -/
theorem raw_row_field_names (cat : Catalog) (s t : String) :
    (∀ r ∈ columnsRows cat s t, (renderColumnRow r).objKeys =
      ["column_name", "data_type", "is_nullable", "column_default",
       "character_maximum_length", "numeric_precision", "numeric_scale"])
    ∧ (∀ r ∈ constraintsRows cat s t, (renderConstraintRow r).objKeys =
      ["constraint_name", "constraint_type", "constraint_type_desc", "definition"])
    ∧ (columnsRows exCatUsers "public" "users").map
        (fun r => (r.column_name, r.data_type, r.is_nullable))
        = [("id", "integer", "NO"), ("name", "text", "YES")]
    ∧ (constraintsRows exCatUsers "public" "users").map
        (fun r => (r.constraint_name, r.constraint_type_desc))
        = [("users_pkey", "PRIMARY KEY")] :=
  ⟨fun _ _ => rfl, fun _ _ => rfl, rfl, rfl⟩

/-- Witness for C3's amended theorem at the scenario catalog's `id`
column. -/
theorem raw_row_field_names_witness :
    (renderColumnRow ⟨"id", "integer", "NO", none, none, some 32, some 0⟩).objKeys =
      ["column_name", "data_type", "is_nullable", "column_default",
       "character_maximum_length", "numeric_precision", "numeric_scale"] :=
  (raw_row_field_names exCatUsers "public" "users").1
    ⟨"id", "integer", "NO", none, none, some 32, some 0⟩
    (by rw [show columnsRows exCatUsers "public" "users"
          = [⟨"id", "integer", "NO", none, none, some 32, some 0⟩,
             ⟨"name", "text", "YES", some "anon::text", none, none, none⟩] from rfl]
        exact List.mem_cons_self _ _)

/-- C4: the trigger output is decoded from the `tgtype` bitmask exactly
as: bit 0 set gives level ROW else STATEMENT; bit 1 set gives timing
BEFORE, else bit 6 set gives INSTEAD OF, else AFTER; bits 2, 3, 4, 5
independently set `insert_event`, `delete_event`, `update_event`,
`truncate_event`; every trigger row in the output is decoded this way
from its catalog trigger's `tgtype`; and a BEFORE + UPDATE bitmask
(`tgtype = 19`) yields timing BEFORE with only `update_event` true. -/
theorem trigger_bitmask_decoding (n : Nat) (cat : Catalog) (s t : String)
    (r : TriggerRow) :
    (triggerLevel n = if n.testBit 0 then "ROW" else "STATEMENT")
    ∧ (triggerTiming n = if n.testBit 1 then "BEFORE"
        else if n.testBit 6 then "INSTEAD OF" else "AFTER")
    ∧ (triggerInsertEvent n = n.testBit 2)
    ∧ (triggerDeleteEvent n = n.testBit 3)
    ∧ (triggerUpdateEvent n = n.testBit 4)
    ∧ (triggerTruncateEvent n = n.testBit 5)
    ∧ (r ∈ triggersRows cat s t → ∃ trg ∈ cat.triggers,
        r.level = triggerLevel trg.tgtype
        ∧ r.timing = triggerTiming trg.tgtype
        ∧ r.insert_event = triggerInsertEvent trg.tgtype
        ∧ r.delete_event = triggerDeleteEvent trg.tgtype
        ∧ r.update_event = triggerUpdateEvent trg.tgtype
        ∧ r.truncate_event = triggerTruncateEvent trg.tgtype)
    ∧ (triggerTiming 19 = "BEFORE" ∧ triggerLevel 19 = "ROW"
        ∧ triggerUpdateEvent 19 = true ∧ triggerInsertEvent 19 = false
        ∧ triggerDeleteEvent 19 = false ∧ triggerTruncateEvent 19 = false) := by
  refine ⟨?_, ?_, ?_, ?_, ?_, ?_, ?_, by decide⟩
  · exact land_one_shift_ite n 0 "ROW" "STATEMENT"
  · rw [show triggerTiming n
        = (if 0 < n &&& (1 <<< 1) then "BEFORE"
           else if 0 < n &&& (1 <<< 6) then "INSTEAD OF" else "AFTER") from rfl,
      land_one_shift_ite, land_one_shift_ite]
  · exact land_one_shift_decide n 2
  · exact land_one_shift_decide n 3
  · exact land_one_shift_decide n 4
  · exact land_one_shift_decide n 5
  · intro hr
    rw [triggersRows, mem_sortLe] at hr
    simp only [List.mem_flatMap, List.mem_filterMap, List.mem_filter] at hr
    obtain ⟨trg, htrg, tbl, _, p, _, ns, _, nsp, _, hif⟩ := hr
    split at hif
    · cases hif
      exact ⟨trg, htrg, rfl, rfl, rfl, rfl, rfl, rfl⟩
    · exact absurd hif (by simp)

/-- Witness for C4 at the concrete `BEFORE UPDATE … FOR EACH ROW` trigger
of `exCatTrig` (`tgtype = 19`). -/
theorem trigger_bitmask_decoding_witness :
    ∃ trg ∈ exCatTrig.triggers,
      exTrigRow.level = triggerLevel trg.tgtype
      ∧ exTrigRow.timing = triggerTiming trg.tgtype
      ∧ exTrigRow.insert_event = triggerInsertEvent trg.tgtype
      ∧ exTrigRow.delete_event = triggerDeleteEvent trg.tgtype
      ∧ exTrigRow.update_event = triggerUpdateEvent trg.tgtype
      ∧ exTrigRow.truncate_event = triggerTruncateEvent trg.tgtype := by
  refine (trigger_bitmask_decoding 19 exCatTrig "public" "users" exTrigRow).2.2.2.2.2.2.1 ?_
  rw [show triggersRows exCatTrig "public" "users" = [exTrigRow] from rfl]
  exact List.mem_singleton.mpr rfl

/-- C5: any metadata accessor failure aborts the whole extraction with
that error propagated unchanged and no partial document:
(1) with no failing accessor the extraction returns the complete document;
(2) an error outcome is exactly the error of some failing accessor other
than the search-path command (or the empty-result TypeError of C9);
(3) a successful outcome is always the complete document — never a
partial one;
(4) the result is identical whether the search-path normalization command
fails or not — its failure is caught, logged and ignored. -/
theorem accessor_failure_propagation (c : Client) (m : String) :
    ((∀ q, q ≠ QueryId.setSearchPath → c.failures q = none) →
      ∀ dbName rest, c.cat.currentDbRows = dbName :: rest →
        (extractStructure c).1 = .ok (pureDocument c.cat dbName))
    ∧ (∀ e, (extractStructure c).1 = .error e →
        (∃ msg, e = .query msg
          ∧ ∃ q, q ≠ QueryId.setSearchPath ∧ c.failures q = some msg)
        ∨ (e = .typeError ∧ c.cat.currentDbRows = []))
    ∧ (∀ d, (extractStructure c).1 = .ok d →
        ∃ dbName rest, c.cat.currentDbRows = dbName :: rest
          ∧ d = pureDocument c.cat dbName)
    ∧ ((extractStructure { c with failures :=
          fun q => if q = QueryId.setSearchPath then some m else c.failures q }).1
        = (extractStructure { c with failures :=
          fun q => if q = QueryId.setSearchPath then none else c.failures q }).1) := by
  refine ⟨?_, ?_, ?_, ?_⟩
  · intro h dbName rest hrows
    unfold extractStructure
    rw [show c.failures QueryId.currentDatabase = none from h _ (fun hq => nomatch hq),
      hrows]
    show Except.map _ (getSchemas c dbName).1 = _
    rw [getSchemas_fst, getSchemasResult_ok c.cat c.failures dbName h]
    rfl
  · intro e he
    unfold extractStructure at he
    cases h1 : c.failures QueryId.currentDatabase with
    | some m2 =>
      rw [h1] at he
      replace he : (Except.error (JsError.query m2) : Except JsError Document)
          = .error e := he
      cases he
      exact Or.inl (found_failure h1 (fun hq => nomatch hq))
    | none =>
      rw [h1] at he
      cases h2 : c.cat.currentDbRows with
      | nil =>
        rw [h2] at he
        replace he : (Except.error JsError.typeError : Except JsError Document)
            = .error e := he
        cases he
        exact Or.inr ⟨rfl, rfl⟩
      | cons dbName rest =>
        rw [h2] at he
        have hm := except_map_error (getSchemas c dbName).1
          (fun ss => ({ databases := [{ name := dbName, schemas := ss }] } : Document))
          e he
        rw [getSchemas_fst] at hm
        exact Or.inl (getSchemasResult_error c.cat c.failures dbName e hm)
  · intro d hd
    unfold extractStructure at hd
    cases h1 : c.failures QueryId.currentDatabase with
    | some m2 =>
      rw [h1] at hd
      exact Except.noConfusion hd
    | none =>
      rw [h1] at hd
      cases h2 : c.cat.currentDbRows with
      | nil =>
        rw [h2] at hd
        exact Except.noConfusion hd
      | cons dbName rest =>
        rw [h2] at hd
        have hm := except_map_ok_inv (getSchemas c dbName).1
          (fun ss => ({ databases := [{ name := dbName, schemas := ss }] } : Document))
          d hd
        obtain ⟨ss, hss, hdss⟩ := hm
        rw [getSchemas_fst] at hss
        have := getSchemasResult_ok_inv c.cat c.failures dbName ss hss
        subst this
        exact ⟨dbName, rest, rfl, hdss⟩
  · refine extract_fst_congr _ _ rfl ?_
    intro q hq
    show (if q = QueryId.setSearchPath then some m else c.failures q)
        = (if q = QueryId.setSearchPath then none else c.failures q)
    rw [if_neg hq, if_neg hq]

/-- Witness for C5: on a connection with no failing queries, the
extraction of the scenario catalog succeeds with the full document. -/
theorem accessor_failure_propagation_witness :
    (extractStructure exClientOk).1 = .ok (pureDocument exCatUsers "mydb") :=
  (accessor_failure_propagation exClientOk "boom").1 (fun _ _ => rfl) "mydb" [] rfl

/-- C6: extraction is deterministic and idempotent: a second
`extractStructure` call on the connection returned by the first yields the
same outcome as the first, and hence serializes to byte-for-byte the same
text. -/
theorem extraction_idempotent (c : Client) :
    (extractStructure ((extractStructure c).2)).1 = (extractStructure c).1
    ∧ serializeOutcome ((extractStructure ((extractStructure c).2)).1)
      = serializeOutcome ((extractStructure c).1) := by
  have hsnd := extract_snd c
  have h := extract_fst_congr ((extractStructure c).2) c hsnd.1
    (fun q _ => by rw [hsnd.2])
  exact ⟨h, congrArg serializeOutcome h⟩

/-- C7: a schema or table with no children of some kind still renders the
corresponding field, bound to an empty list — the field is never absent;
in particular a schema with no tables produces `tables: []`. -/
theorem empty_children_fields_present (cat : Catalog) (s t : String) :
    (tablesRows cat s = [] →
      (renderSchema (pureSchema cat s)).getField "tables" = some (.jarr []))
    ∧ (viewsRows cat s = [] →
      (renderSchema (pureSchema cat s)).getField "views" = some (.jarr []))
    ∧ (functionsRows cat s = [] →
      (renderSchema (pureSchema cat s)).getField "functions" = some (.jarr []))
    ∧ (columnsRows cat s t = [] →
      (renderTable (pureTable cat s t)).getField "columns" = some (.jarr []))
    ∧ (constraintsRows cat s t = [] →
      (renderTable (pureTable cat s t)).getField "constraints" = some (.jarr []))
    ∧ (fkRows cat s t = [] →
      (renderTable (pureTable cat s t)).getField "foreignKeys" = some (.jarr []))
    ∧ (triggersRows cat s t = [] →
      (renderTable (pureTable cat s t)).getField "triggers" = some (.jarr []))
    ∧ (indexesRows cat s t = [] →
      (renderTable (pureTable cat s t)).getField "indexes" = some (.jarr [])) := by
  refine ⟨?_, ?_, ?_, ?_, ?_, ?_, ?_, ?_⟩ <;> intro h <;>
    simp only [pureSchema, pureTable, pureTables, h] <;> rfl

/-- Witness for C7 on the empty catalog: a schema with no tables renders
`tables: []` and a table with no columns renders `columns: []`. -/
theorem empty_children_fields_present_witness :
    (renderSchema (pureSchema emptyCatalog "public")).getField "tables"
      = some (.jarr [])
    ∧ (renderTable (pureTable emptyCatalog "public" "t")).getField "columns"
      = some (.jarr []) :=
  ⟨(empty_children_fields_present emptyCatalog "public" "t").1 rfl,
   (empty_children_fields_present emptyCatalog "public" "t").2.2.2.1 rfl⟩

theorem mem_leftJoinRows {α : Type} (rows : List α) (x : α)
    (h : some x ∈ leftJoinRows rows) : x ∈ rows := by
  cases rows with
  | nil => simp [leftJoinRows] at h
  | cons r rs =>
    simp only [leftJoinRows, List.mem_map] at h
    obtain ⟨y, hy, hyx⟩ := h
    cases hyx
    exact hy

/-- C8: a function implemented in an internal/native non-inspectable
language (`internal` or `c`) contributes nothing to `getFunctions`' rows,
and the schema's functions list equals the list computed with that proc
removed from the catalog — it is excluded from the output. -/
theorem internal_language_functions_excluded (cat : Catalog) (p : PgProc) (s : String)
    (hl : ∀ l ∈ cat.languages, l.oid = p.prolang →
      l.lanname = "internal" ∨ l.lanname = "c") :
    funContrib cat s p = []
    ∧ functionsRows cat s
      = functionsRows { cat with procs := cat.procs.filter (fun q => !(q == p)) } s := by
  have hcontrib : funContrib cat s p = [] := by
    unfold funContrib
    refine List.flatMap_eq_nil_iff.mpr (fun n _ => ?_)
    refine List.flatMap_eq_nil_iff.mpr (fun t2 _ => ?_)
    refine List.filterMap_eq_nil_iff.mpr (fun lrow hlrow => ?_)
    cases lrow with
    | none => rfl
    | some l =>
      have hlmem := mem_leftJoinRows _ _ hlrow
      rw [List.mem_filter] at hlmem
      have hoid : l.oid = p.prolang := by
        have h2 := hlmem.2
        simp only [beq_iff_eq] at h2
        exact h2.symm
      rcases hl l hlmem.1 hoid with h | h <;> simp [h]
  refine ⟨hcontrib, ?_⟩
  show sortLe (fun a b => strLe a.name b.name) (cat.procs.flatMap (funContrib cat s))
    = sortLe (fun a b => strLe a.name b.name)
      ((cat.procs.filter (fun q => !(q == p))).flatMap (funContrib cat s))
  rw [flatMap_filter_of_nil cat.procs (fun q => !(q == p)) (funContrib cat s)
    (fun x _ hfx => by
      have hx : x = p := by simpa using hfx
      rw [hx]
      exact hcontrib)]

/-- Witness for C8: in `exCatFun` the function `native_fn` (language
`internal`) is excluded: it contributes no row, and the functions list
equals the one computed without it. -/
theorem internal_language_functions_excluded_witness :
    funContrib exCatFun "public" exNativeProc = []
    ∧ functionsRows exCatFun "public"
      = functionsRows { exCatFun with
          procs := exCatFun.procs.filter (fun q => !(q == exNativeProc)) } "public" :=
  internal_language_functions_excluded exCatFun exNativeProc "public" (by decide)

/-- C9: `extractStructure` reads `rows[0].db_name` of the current-database
query without checking emptiness: when that query succeeds with zero rows
the extraction fails with a runtime type error, which is distinct from
every clean query-error outcome. -/
theorem empty_current_db_type_error (c : Client)
    (h1 : c.failures QueryId.currentDatabase = none)
    (h2 : c.cat.currentDbRows = []) :
    (extractStructure c).1 = .error .typeError
    ∧ ∀ msg, (JsError.typeError : JsError) ≠ .query msg := by
  constructor
  · unfold extractStructure
    rw [h1, h2]
  · intro msg hmsg
    exact JsError.noConfusion hmsg

/-- Witness for C9 on a connection whose current-database query returns
zero rows. -/
theorem empty_current_db_type_error_witness :
    (extractStructure exClientNoDb).1 = .error .typeError :=
  (empty_current_db_type_error exClientNoDb rfl rfl).1

/-- C10: every index row's `is_unique` is computed purely as a text
heuristic — it is true exactly when the index's definition string contains
the substring `UNIQUE INDEX` (the model's `pg_index.indisunique` flag is
never consulted by the query). -/
theorem index_uniqueness_text_heuristic (cat : Catalog) (s t : String) (r : IndexRow)
    (h : r ∈ indexesRows cat s t) :
    r.is_unique = sqlLikeContains r.index_definition "UNIQUE INDEX" := by
  rw [indexesRows, mem_sortLe] at h
  simp only [List.mem_flatMap, List.mem_filterMap, List.mem_filter] at h
  obtain ⟨i, hi, c2, hc2, n, hn, ix, hix, hif⟩ := h
  split at hif
  · cases hif
    rfl
  · exact absurd hif (by simp)

/-- Witness for C10: the index of `exCatIdx` has `indisunique = true` in
the catalog, yet its definition lacks the substring and `is_unique` comes
out false. -/
theorem index_uniqueness_text_heuristic_witness :
    (⟨"i1", "CREATE INDEX i1 ON public.t USING btree (b)", some ["b"], none,
      false, false, true⟩ : IndexRow).is_unique
      = sqlLikeContains "CREATE INDEX i1 ON public.t USING btree (b)" "UNIQUE INDEX" :=
  index_uniqueness_text_heuristic exCatIdx "public" "t" _
    (by rw [show indexesRows exCatIdx "public" "t"
          = [⟨"i1", "CREATE INDEX i1 ON public.t USING btree (b)", some ["b"], none,
              false, false, true⟩] from rfl]
        exact List.mem_singleton.mpr rfl)
